import Mathlib

/-!
Shallow embedding of the `task` package of github.com/charmingruby/fgp
(file `task/task.go`), together with the pieces of `result/result.go` and
`internal/timeutil` that the task combinators use.

Modelling conventions:

* Go's nilable `error` values become `Option GoError`; `none` is `nil`.
  `GoError` is a structural error value: `GoError.mk msg` stands for an
  error built with `errors.New(msg)`, and `GoError.joined errs` for the
  multi-error produced by `errors.Join`.
* A `context.Context` is observed by the task code only through `ctx.Err()`
  and through cancellation triggered by the tasks themselves, so a context
  is modelled as the `ctxErr : Option GoError` field of an explicit state.
  Tasks are state-passing functions: `St σ → St σ × T × Option GoError`,
  mirroring Go's `func(ctx context.Context) (T, error)` where side effects
  (counters, cancellation of the shared context) act on the state.  The
  model is time-free: a timer deadline never elapses during a run.
* Go's `var zero T` becomes `default` from an `Inhabited` instance.
-/

namespace Fgp

/-- Structural model of Go `error` values as used by the task package:
an `errors.New`-style message error, or the wrapper made by `errors.Join`. -/
inductive GoError where
  | mk (msg : String)
  | joined (errs : List GoError)
deriving Repr

mutual

/-- Structural equality on errors, standing in for Go `==` comparability
of error values. -/
def GoError.beq : GoError → GoError → Bool
  | .mk a, .mk b => a == b
  | .joined es, .joined fs => GoError.beqList es fs
  | _, _ => false

/-- Pointwise list version of `GoError.beq`. -/
def GoError.beqList : List GoError → List GoError → Bool
  | [], [] => true
  | e :: es, f :: fs => GoError.beq e f && GoError.beqList es fs
  | _, _ => false

end

instance : BEq GoError := ⟨GoError.beq⟩

mutual

/-- `errors.Is(err, target)`: `err == target`, or `target` is among the
(recursively unwrapped) causes of a joined error. -/
def GoError.is : GoError → GoError → Bool
  | .mk a, t => GoError.beq (.mk a) t
  | .joined es, t => GoError.beq (.joined es) t || GoError.isAny es t

/-- `errors.Is` searched across a cause list. -/
def GoError.isAny : List GoError → GoError → Bool
  | [], _ => false
  | e :: es, t => GoError.is e t || GoError.isAny es t

end

/-- `errors.Join`: nil errors are dropped; if no error remains the result is
nil, otherwise one error wrapping all non-nil causes. -/
def errorsJoin (errs : List (Option GoError)) : Option GoError :=
  match errs.filterMap id with
  | [] => none
  | nonNil => some (.joined nonNil)

/-- `context.Canceled`. -/
def ctxCanceled : GoError := .mk "context canceled"

/-- `context.DeadlineExceeded`. -/
def ctxDeadlineExceeded : GoError := .mk "context deadline exceeded"

/-- Execution state threaded through a task run: the error reported by the
ambient `context.Context` (none while the context is live), plus an
arbitrary payload `σ` for task side effects (call counters, traces). -/
structure St (σ : Type) where
  ctxErr : Option GoError
  payload : σ
deriving Repr

/-- `Task[T]`: `func(ctx context.Context) (T, error)`, in state-passing
form.  The returned triple is (state after the run, value, error). -/
abbrev Task (σ T : Type) := St σ → St σ × T × Option GoError

/-- `task.Pure`: succeeds with `value` unless the context is already
canceled. -/
def Pure [Inhabited T] (value : T) : Task σ T :=
  fun s =>
    match s.ctxErr with
    | some err => (s, default, some err)
    | none => (s, value, none)

/-- `task.Fail`: always fails with `err` (or a placeholder when `err` is
nil); context cancellation takes precedence. -/
def Fail [Inhabited T] (err : Option GoError) : Task σ T :=
  let failureErr := err.getD (.mk "task: nil error")
  fun s =>
    match s.ctxErr with
    | some ctxErr => (s, default, some ctxErr)
    | none => (s, default, some failureErr)

/-- `task.Map`: transform the value on success, after re-checking
cancellation. -/
def Map [Inhabited U] (t : Task σ T) (fn : T → U) : Task σ U :=
  fun s =>
    match t s with
    | (s', _, some err) => (s', default, some err)
    | (s', val, none) =>
      match s'.ctxErr with
      | some err => (s', default, some err)
      | none => (s', fn val, none)

/-- `task.FlatMap`: monadic chaining of two tasks, re-checking cancellation
between the stages. -/
def FlatMap [Inhabited U] (t : Task σ T) (fn : T → Task σ U) : Task σ U :=
  fun s =>
    match t s with
    | (s', _, some err) => (s', default, some err)
    | (s', val, none) =>
      match s'.ctxErr with
      | some err => (s', default, some err)
      | none => fn val s'

/-- `task.From`: wraps a context-aware function, checking cancellation
before invoking it. -/
def From [Inhabited T] (fn : Task σ T) : Task σ T :=
  fun s =>
    match s.ctxErr with
    | some err => (s, default, some err)
    | none => fn s

/-- `result.Result[T]`: a value-or-error pair; the zero value
(`result.Result[T]{}`) has a zero value and a nil error. -/
structure Result (T : Type) where
  value : T
  err : Option GoError
deriving Repr

/-- `result.Ok`. -/
def Result.Ok (value : T) : Result T := ⟨value, none⟩

/-- `result.Err`: a nil error is replaced by a descriptive placeholder. -/
def Result.Err [Inhabited T] (err : Option GoError) : Result T :=
  ⟨default, some (err.getD (.mk "result: nil error"))⟩

/-- `timeutil.Sleep(ctx, d)` in the time-free model: a non-positive
duration returns true at once, before any look at the context; otherwise
the select resolves to the context's Done channel exactly when the context
is (already) canceled, else the timer fires and the wait succeeds. -/
def timeutil.Sleep (ctxErr : Option GoError) (d : Int) : Bool :=
  if d ≤ 0 then true else ctxErr.isNone

/-- `task.Bracket`: acquire, use, then always release; a failing release is
joined with a failing use via `errors.Join`. -/
def Bracket [Inhabited B]
    (acquire : Task σ A)
    (use : A → Task σ B)
    (release : St σ → A → Option GoError → St σ × Option GoError) :
    Task σ B :=
  fun s =>
    match acquire s with
    | (s1, _, some err) => (s1, default, some err)
    | (s1, resource, none) =>
      match use resource s1 with
      | (s2, value, useErr) =>
        match release s2 resource useErr with
        | (s3, some releaseErr) =>
          match useErr with
          | some ue => (s3, value, errorsJoin [some ue, some releaseErr])
          | none => (s3, default, some releaseErr)
        | (s3, none) =>
          match useErr with
          | some ue => (s3, value, some ue)
          | none => (s3, value, none)

/-- The error reported by the derived `context.WithTimeout` context in the
time-free model: the parent's error wins; an instantaneous run can never
outlive a positive deadline, while a non-positive deadline has already
expired at derivation time. -/
def withTimeoutCtxErr (parent : Option GoError) (d : Int) : Option GoError :=
  match parent with
  | some err => some err
  | none => if d ≤ 0 then some ctxDeadlineExceeded else none

/-- `task.Timeout`: returns `t` itself when `d ≤ 0`; otherwise runs `t`
under a derived deadline context. -/
def Timeout (t : Task σ T) (d : Int) : Task σ T :=
  if d ≤ 0 then t
  else fun s => t { s with ctxErr := withTimeoutCtxErr s.ctxErr d }

/-- `task.RetryConfig`. -/
structure RetryConfig where
  Attempts : Int
  Delay : Int
  Backoff : Option (Nat → GoError → Int) := none
  ShouldRetry : Option (GoError → Bool) := none

/-- The `for attempt := 1; attempt <= attempts; attempt++` loop body of
`task.Retry`, with `lastErr` threaded across iterations. -/
def retryLoop [Inhabited T] (t : Task σ T) (cfg : RetryConfig) (attempts : Nat) :
    Nat → Option GoError → St σ → St σ × T × Option GoError
  | attempt, lastErr, s =>
    if _h : attempts < attempt then (s, default, lastErr)
    else
      match s.ctxErr with
      | some err => (s, default, some err)
      | none =>
        match t s with
        | (s', value, none) => (s', value, none)
        | (s', _, some err) =>
          if (match cfg.ShouldRetry with | some p => !p err | none => false) then
            (s', default, some err)
          else if attempt = attempts then
            (s', default, some err)
          else
            let delay := match cfg.Backoff with
              | some b => b attempt err
              | none => cfg.Delay
            let delay := if delay < 0 then 0 else delay
            if ¬ timeutil.Sleep s'.ctxErr delay then (s', default, s'.ctxErr)
            else retryLoop t cfg attempts (attempt + 1) (some err) s'
termination_by attempt => attempts + 1 - attempt

/-- `task.Retry`: re-executes `t` per the config; non-positive configured
attempts are coerced to 1. -/
def Retry [Inhabited T] (t : Task σ T) (cfg : RetryConfig) : Task σ T :=
  fun s =>
    let attempts := if cfg.Attempts ≤ 0 then 1 else cfg.Attempts.toNat
    retryLoop t cfg attempts 1 none s

/-- The per-task loop of `task.Sequence`: check cancellation, run the next
task, abort on first failure (returning a nil slice). -/
def seqLoop : List (Task σ T) → List T → St σ → St σ × List T × Option GoError
  | [], acc, s => (s, acc, none)
  | t :: rest, acc, s =>
    match s.ctxErr with
    | some err => (s, [], some err)
    | none =>
      match t s with
      | (s', _, some err) => (s', [], some err)
      | (s', val, none) => seqLoop rest (acc ++ [val]) s'

/-- `task.Sequence`: runs the tasks sequentially, in input order, with a
cancellation check up front and before each task. -/
def Sequence (tasks : List (Task σ T)) : Task σ (List T) :=
  fun s =>
    match s.ctxErr with
    | some err => (s, [], some err)
    | none => seqLoop tasks [] s

/-- `task.Delay`: sleeps for `d` (or until cancellation) and fails with the
context's error when the wait was interrupted. -/
def Delay (d : Int) : Task σ Unit :=
  fun s =>
    if ¬ timeutil.Sleep s.ctxErr d then (s, (), s.ctxErr)
    else (s, (), none)

/-- `task.clampParallelism`. -/
def clampParallelism (total requested : Int) : Int :=
  if requested ≤ 0 then 1
  else if requested > total then total
  else requested

/-- The worker/job pipeline of `task.TraverseParN`, realized by the
deterministic enqueue-order schedule: jobs are processed in input order and
the first error cancels the traversal (fail-fast). -/
def traverseLoop (fn : A → Task σ B) : List A → List B → St σ → St σ × List B × Option GoError
  | [], acc, s => (s, acc, none)
  | item :: rest, acc, s =>
    match fn item s with
    | (s', _, some err) => (s', acc, some err)
    | (s', val, none) => traverseLoop fn rest (acc ++ [val]) s'

/-- `task.TraverseParN`: bounded parallel traversal.  Empty input succeeds
at once; otherwise the worker pool (of size `clampParallelism`) drains the
job queue, an error discards all results, and a canceled context is
reported even when no worker failed. -/
def TraverseParN [Inhabited B] (items : List A) (n : Int) (fn : A → Task σ B) :
    Task σ (List B) :=
  fun s =>
    if items.isEmpty then (s, [], none)
    else
      let _workers := clampParallelism (items.length : Int) n
      match traverseLoop fn items [] s with
      | (s', _, some err) => (s', [], some err)
      | (s', results, none) =>
        match s'.ctxErr with
        | some err => (s', [], some err)
        | none => (s', results, none)

/-- `task.errParMapNilFn`. -/
def errParMapNilFn : GoError := .mk "task: nil function for ParMapN"

/-- `task.ParMapN`: with a nil `fn`, a task that always fails with
`errParMapNilFn`; otherwise the bounded traversal applied to `fn`. -/
def ParMapN [Inhabited B] (items : List A) (n : Int)
    (fn : Option (A → Task σ B)) : Task σ (List B) :=
  match fn with
  | none => fun s => (s, [], some errParMapNilFn)
  | some f => TraverseParN items n (fun item => fun s => f item s)

/-- `task.errRaceNoTasks`. -/
def errRaceNoTasks : GoError := .mk "task: race requires at least one task"

/-- One resolution of the `select` inside `awaitRaceResult`: either the
race context's Done channel fired (carrying `ctx.Err()`), or a worker
delivered an outcome on the buffered channel. -/
inductive RaceEvent (T : Type) where
  | ctxDone (err : GoError)
  | outcome (value : T) (err : Option GoError)
deriving Repr

/-- `task.awaitRaceResult`: the loop that drains up to `total` select
resolutions.  `events` is the chronological sequence in which the select
statements resolve; `finalCtxErr` is what `ctx.Err()` reports after the
loop.  Cancellation returns at once; the first success returns at once
(canceling the rest); errors accumulate only the chronologically first one,
reported after all `total` workers are drained. -/
def awaitRaceResult [Inhabited T] (finalCtxErr : Option GoError) :
    Nat → List (RaceEvent T) → Option GoError → T × Option GoError
  | 0, _, firstErr =>
    match firstErr with
    | some err => (default, some err)
    | none => (default, finalCtxErr)
  | _ + 1, [], firstErr =>
    -- here the Go loop blocks awaiting a further select resolution; the
    -- model is only invoked with enough events to cover the loop count
    (default, firstErr)
  | remaining + 1, ev :: rest, firstErr =>
    match ev with
    | .ctxDone err => (default, some err)
    | .outcome value none => (value, none)
    | .outcome _ (some err) =>
      awaitRaceResult finalCtxErr remaining rest
        (match firstErr with | none => some err | some e => some e)

/-- `task.Race`: fails on an empty task list or an already-canceled
context; otherwise the workers started by `startRaceWorkers` race and the
result is read off the observed event schedule by `awaitRaceResult`.
`events`/`finalCtxErr` stand for the schedule in which the spawned workers
and the race context are observed by the select loop. -/
def Race [Inhabited T] (tasks : List (Task σ T)) (events : List (RaceEvent T))
    (finalCtxErr : Option GoError) : Task σ T :=
  fun s =>
    if tasks.length = 0 then (s, default, some errRaceNoTasks)
    else
      match s.ctxErr with
      | some err => (s, default, some err)
      | none =>
        match awaitRaceResult finalCtxErr tasks.length events none with
        | (value, err) => (s, value, err)

/-- `task.ToResultTask`: failures are captured inside a `Result` value,
except failures attributable to context cancellation (checked via
`errors.Is` against `ctx.Err()`), which stay the task's own error. -/
def ToResultTask [Inhabited T] (t : Task σ T) : Task σ (Result T) :=
  fun s =>
    match t s with
    | (s', val, none) => (s', Result.Ok val, none)
    | (s', _, some err) =>
      match s'.ctxErr with
      | some ctxErr =>
        if GoError.is err ctxErr then (s', ⟨default, none⟩, some err)
        else (s', Result.Err (some err), none)
      | none => (s', Result.Err (some err), none)

/-! ## Helper lemmas -/

mutual

theorem GoError.beq_refl : (e : GoError) → GoError.beq e e = true
  | .mk a => by simp [GoError.beq]
  | .joined es => by simp [GoError.beq, GoError.beqList_refl es]

theorem GoError.beqList_refl : (es : List GoError) → GoError.beqList es es = true
  | [] => rfl
  | e :: es => by simp [GoError.beqList, GoError.beq_refl e, GoError.beqList_refl es]

end

theorem GoError.is_refl (e : GoError) : GoError.is e e = true := by
  cases e with
  | mk a => simp [GoError.is, GoError.beq]
  | joined es => simp [GoError.is, GoError.beq_refl]

/-! ## Claims -/

/-- C7: for every item count `total ≥ 1` and requested limit `n`, the
effective worker count `clampParallelism total n` of the bounded parallel
traversal equals `clamp(n, 1, total) = max 1 (min n total)`: it is 1 when
`n ≤ 0`, `total` when `n > total`, and `n` otherwise. -/
theorem c7_clamp_parallelism (total n : Int) (h : 1 ≤ total) :
    clampParallelism total n = max 1 (min n total) ∧
    (n ≤ 0 → clampParallelism total n = 1) ∧
    (n > total → clampParallelism total n = total) ∧
    (0 < n → n ≤ total → clampParallelism total n = n) := by
  unfold clampParallelism
  split_ifs <;> omega

theorem c7_clamp_parallelism_witness :
    (1 : Int) ≤ 5 ∧
    (clampParallelism 5 0 = max 1 (min 0 5) ∧
     ((0 : Int) ≤ 0 → clampParallelism 5 0 = 1) ∧
     ((0 : Int) > 5 → clampParallelism 5 0 = 5) ∧
     ((0 : Int) < 0 → (0 : Int) ≤ 5 → clampParallelism 5 0 = 0)) :=
  ⟨by decide, c7_clamp_parallelism 5 0 (by decide)⟩

/-- C8: for every task `t` and duration `d ≤ 0`, `Timeout t d` is the very
task `t` (no deadline is applied), so invoking it on any context yields
exactly the outcome of `t` rather than an immediate timeout. -/
theorem c8_timeout_nonpositive (σ T : Type) (t : Task σ T) (d : Int) (h : d ≤ 0) :
    Timeout t d = t ∧ ∀ s : St σ, Timeout t d s = t s := by
  constructor
  · simp [Timeout, h]
  · intro s
    simp [Timeout, h]

theorem c8_timeout_nonpositive_witness :
    (-1 : Int) ≤ 0 ∧
    Timeout (Pure 3 : Task Unit Nat) (-1) ⟨some ctxCanceled, ()⟩
      = (Pure 3 : Task Unit Nat) ⟨some ctxCanceled, ()⟩ :=
  ⟨by decide,
    (c8_timeout_nonpositive Unit Nat (Pure 3) (-1) (by decide)).2 ⟨some ctxCanceled, ()⟩⟩

/-- C9: for every duration `d ≤ 0`, `Delay d` succeeds immediately on any
context — including an already-canceled one — without observing the
context's cancellation error, because the non-positive-duration fast path
of `timeutil.Sleep` returns before the cancellation check. -/
theorem c9_delay_nonpositive (σ : Type) (d : Int) (h : d ≤ 0) (s : St σ) :
    Delay d s = (s, (), none) := by
  simp [Delay, timeutil.Sleep, h]

theorem c9_delay_nonpositive_witness :
    (0 : Int) ≤ 0 ∧
    Delay 0 (⟨some ctxCanceled, ()⟩ : St Unit) = (⟨some ctxCanceled, ()⟩, (), none) :=
  ⟨by decide, c9_delay_nonpositive Unit 0 (by decide) ⟨some ctxCanceled, ()⟩⟩

/-- C10: for every item list, every limit `n`, and every context/state,
`ParMapN items n none` (a nil `fn`) returns the dedicated error
`errParMapNilFn` ("task: nil function for ParMapN"), leaves the state
untouched, and never enters the bounded traversal. -/
theorem c10_parmapn_nil_fn (σ A B : Type) [Inhabited B]
    (items : List A) (n : Int) (s : St σ) :
    ParMapN items n (none : Option (A → Task σ B)) s = (s, [], some errParMapNilFn) :=
  rfl

/-- C4: for every error `err`, `ToResultTask (Fail err)` on a live context
returns a `Result` containing `err` with no task-level error, while on a
pre-canceled context it returns the empty `Result` with the context's
cancellation error as the task's own failure. -/
theorem c4_to_result_task_fail (σ T : Type) [Inhabited T] (err : GoError) (s : St σ) :
    (s.ctxErr = none →
      ToResultTask (Fail (some err) : Task σ T) s = (s, Result.Err (some err), none) ∧
      (Result.Err (some err) : Result T).err = some err) ∧
    (∀ ce, s.ctxErr = some ce →
      ToResultTask (Fail (some err) : Task σ T) s = (s, ⟨default, none⟩, some ce)) := by
  constructor
  · intro hLive
    constructor
    · simp [ToResultTask, Fail, hLive, Result.Err]
    · simp [Result.Err]
  · intro ce hCanceled
    simp [ToResultTask, Fail, hCanceled, GoError.is_refl]

theorem c4_to_result_task_fail_witness :
    ToResultTask (Fail (some (.mk "boom")) : Task Unit Nat) ⟨none, ()⟩
      = (⟨none, ()⟩, Result.Err (some (.mk "boom")), none) ∧
    ToResultTask (Fail (some (.mk "boom")) : Task Unit Nat) ⟨some ctxCanceled, ()⟩
      = (⟨some ctxCanceled, ()⟩, ⟨default, none⟩, some ctxCanceled) :=
  ⟨((c4_to_result_task_fail Unit Nat (.mk "boom") ⟨none, ()⟩).1 rfl).1,
   (c4_to_result_task_fail Unit Nat (.mk "boom") ⟨some ctxCanceled, ()⟩).2 ctxCanceled rfl⟩

/-- C6: for every config with `Attempts ≤ 0` and every task `t`, `Retry t
cfg` on a live context runs `t` exactly once (the final state is the state
after that single run) and returns `t`'s outcome: its value on success,
its error on failure — one attempt, never zero. -/
theorem c6_retry_nonpositive_attempts (σ T : Type) [Inhabited T]
    (t : Task σ T) (cfg : RetryConfig) (s : St σ)
    (hA : cfg.Attempts ≤ 0) (hLive : s.ctxErr = none) :
    (∀ s2 v, t s = (s2, v, none) → Retry t cfg s = (s2, v, none)) ∧
    (∀ s2 v e, t s = (s2, v, some e) → Retry t cfg s = (s2, default, some e)) := by
  constructor
  · intro s2 v ht
    rw [Retry, if_pos hA, retryLoop]
    simp [hLive, ht]
  · intro s2 v e ht
    rw [Retry, if_pos hA, retryLoop]
    simp [hLive, ht]

theorem c6_retry_nonpositive_attempts_witness :
    ({ Attempts := -2, Delay := 10 } : RetryConfig).Attempts ≤ 0 ∧
    Retry (Fail (some (.mk "boom")) : Task Unit Nat) { Attempts := -2, Delay := 10 } ⟨none, ()⟩
      = (⟨none, ()⟩, default, some (.mk "boom")) :=
  ⟨by decide,
    (c6_retry_nonpositive_attempts Unit Nat (Fail (some (.mk "boom")))
      { Attempts := -2, Delay := 10 } ⟨none, ()⟩ (by decide) rfl).2
      ⟨none, ()⟩ default (.mk "boom") rfl⟩

/-- C5: for `Bracket acquire use release` where `acquire` succeeds: when
both `use` and `release` fail the reported error is the `errors.Join` of
the two, whose cause set contains both (checked via `errors.Is`); when only
`release` fails its error is reported; when only `use` fails its error is
reported and `release`'s success is ignored. -/
theorem c5_bracket_error_cases (σ A B : Type) [Inhabited B]
    (acquire : Task σ A) (use : A → Task σ B)
    (release : St σ → A → Option GoError → St σ × Option GoError)
    (s s1 : St σ) (a : A) (hacq : acquire s = (s1, a, none)) :
    (∀ s2 s3 v ue re, use a s1 = (s2, v, some ue) →
      release s2 a (some ue) = (s3, some re) →
      Bracket acquire use release s = (s3, v, some (.joined [ue, re])) ∧
      GoError.is (.joined [ue, re]) ue = true ∧
      GoError.is (.joined [ue, re]) re = true) ∧
    (∀ s2 s3 v re, use a s1 = (s2, v, none) →
      release s2 a none = (s3, some re) →
      Bracket acquire use release s = (s3, default, some re)) ∧
    (∀ s2 s3 v ue, use a s1 = (s2, v, some ue) →
      release s2 a (some ue) = (s3, none) →
      Bracket acquire use release s = (s3, v, some ue)) := by
  refine ⟨?_, ?_, ?_⟩
  · intro s2 s3 v ue re huse hrel
    refine ⟨?_, ?_, ?_⟩
    · simp [Bracket, hacq, huse, hrel, errorsJoin]
    · simp [GoError.is, GoError.isAny, GoError.is_refl]
    · simp [GoError.is, GoError.isAny, GoError.is_refl]
  · intro s2 s3 v re huse hrel
    simp [Bracket, hacq, huse, hrel]
  · intro s2 s3 v ue huse hrel
    simp [Bracket, hacq, huse, hrel]

theorem c5_bracket_error_cases_witness :
    (Bracket (Pure 1 : Task Unit Nat) (fun _ => Fail (some (.mk "use")))
        (fun s _ _ => (s, some (.mk "rel"))) ⟨none, ()⟩
      = (⟨none, ()⟩, (default : Nat), some (.joined [.mk "use", .mk "rel"])) ∧
      GoError.is (.joined [.mk "use", .mk "rel"]) (.mk "use") = true ∧
      GoError.is (.joined [.mk "use", .mk "rel"]) (.mk "rel") = true) ∧
    Bracket (Pure 1 : Task Unit Nat) (fun _ => Pure 2)
        (fun s _ _ => (s, some (.mk "rel"))) ⟨none, ()⟩
      = (⟨none, ()⟩, (default : Nat), some (.mk "rel")) ∧
    Bracket (Pure 1 : Task Unit Nat) (fun _ => Fail (some (.mk "use")))
        (fun s _ _ => (s, none)) ⟨none, ()⟩
      = (⟨none, ()⟩, (default : Nat), some (.mk "use")) :=
  ⟨(c5_bracket_error_cases Unit Nat Nat (Pure 1) (fun _ => Fail (some (.mk "use")))
      (fun s _ _ => (s, some (.mk "rel"))) ⟨none, ()⟩ ⟨none, ()⟩ 1 rfl).1
      ⟨none, ()⟩ ⟨none, ()⟩ default (.mk "use") (.mk "rel") rfl rfl,
   (c5_bracket_error_cases Unit Nat Nat (Pure 1) (fun _ => Pure 2)
      (fun s _ _ => (s, some (.mk "rel"))) ⟨none, ()⟩ ⟨none, ()⟩ 1 rfl).2.1
      ⟨none, ()⟩ ⟨none, ()⟩ 2 (.mk "rel") rfl rfl,
   (c5_bracket_error_cases Unit Nat Nat (Pure 1) (fun _ => Fail (some (.mk "use")))
      (fun s _ _ => (s, none)) ⟨none, ()⟩ ⟨none, ()⟩ 1 rfl).2.2
      ⟨none, ()⟩ ⟨none, ()⟩ default (.mk "use") rfl rfl⟩

/-- C2: `Sequence` runs tasks strictly in input order on the invoking
thread (the state threads through the tasks head-first), checks
cancellation up front and before each task, and aborts on the first
failure or cancellation returning only an error and an empty (nil) result
list; in particular when the first of two tasks cancels the shared
context, the second is never invoked (the final state is exactly the state
left by the first task). -/
theorem c2_sequence_abort_semantics (σ T : Type) :
    (∀ (tasks : List (Task σ T)) (s : St σ) (e : GoError), s.ctxErr = some e →
      Sequence tasks s = (s, [], some e)) ∧
    (∀ (t : Task σ T) (rest : List (Task σ T)) (s s2 : St σ) (v : T) (e : GoError),
      s.ctxErr = none → t s = (s2, v, some e) →
      Sequence (t :: rest) s = (s2, [], some e)) ∧
    (∀ (t t2 : Task σ T) (more : List (Task σ T)) (s s2 : St σ) (v : T) (ce : GoError),
      s.ctxErr = none → t s = (s2, v, none) → s2.ctxErr = some ce →
      Sequence (t :: t2 :: more) s = (s2, [], some ce)) := by
  refine ⟨?_, ?_, ?_⟩
  · intro tasks s e h
    simp [Sequence, h]
  · intro t rest s s2 v e hLive ht
    simp [Sequence, seqLoop, hLive, ht]
  · intro t t2 more s s2 v ce hLive ht hc
    simp [Sequence, seqLoop, hLive, ht, hc]

theorem c2_sequence_abort_semantics_witness :
    Sequence
        [(fun s => (⟨some ctxCanceled, s.payload + 1⟩, 1, none) : Task Nat Nat),
         (fun s => (⟨s.ctxErr, s.payload + 1⟩, 2, none) : Task Nat Nat)]
        ⟨none, 0⟩
      = (⟨some ctxCanceled, 1⟩, [], some ctxCanceled) :=
  (c2_sequence_abort_semantics Nat Nat).2.2
    (fun s => (⟨some ctxCanceled, s.payload + 1⟩, 1, none))
    (fun s => (⟨s.ctxErr, s.payload + 1⟩, 2, none)) []
    ⟨none, 0⟩ ⟨some ctxCanceled, 1⟩ 1 ctxCanceled rfl rfl rfl

/-- C3 counterexample: as stated, the functor identity law fails on the
code for an arbitrary task and an arbitrary context: for the task that
ignores cancellation and returns 42, `Map task identity` on a canceled
context fails with the cancellation error while the task itself succeeds
with 42. -/
theorem c3_map_identity_counterexample :
    Map (fun s => (s, 42, none) : Task Unit Nat) (fun x => x) ⟨some ctxCanceled, ()⟩
      ≠ (fun s => (s, 42, none) : Task Unit Nat) ⟨some ctxCanceled, ()⟩ := by
  intro h
  simp [Map] at h

/-- C3 amended: `Map u identity` has the same value-and-error outcome as
`u` on every context for every task `u` that returns the zero value
whenever it fails and never reports success while the context is canceled
(both hold for every task built by the package constructors, which check
`ctx.Err()`); and `FlatMap` associativity holds unconditionally: for all
tasks `u` and functions `f`, `g`, `FlatMap (FlatMap u f) g` and
`FlatMap u (fun x => FlatMap (f x) g)` agree on every context. -/
theorem c3_functor_monad_laws_amended :
    (∀ (σ T : Type) [Inhabited T] (u : Task σ T),
      (∀ s s2 v e, u s = (s2, v, some e) → v = default) →
      (∀ s s2 v, u s = (s2, v, none) → s2.ctxErr = none) →
      ∀ s, Map u (fun x => x) s = u s) ∧
    (∀ (σ T U V : Type) [Inhabited U] [Inhabited V]
      (u : Task σ T) (f : T → Task σ U) (g : U → Task σ V) (s : St σ),
      FlatMap (FlatMap u f) g s = FlatMap u (fun x => FlatMap (f x) g) s) := by
  constructor
  · intro σ T _ u hZero hLive s
    rcases hu : u s with ⟨s2, v, e⟩
    cases e with
    | some e =>
      have hv := hZero s s2 v e hu
      simp [Map, hu, hv]
    | none =>
      have hc := hLive s s2 v hu
      simp [Map, hu, hc]
  · intro σ T U V _ _ u f g s
    rcases hu : u s with ⟨s2, v, e⟩
    cases e with
    | some e => simp [FlatMap, hu]
    | none =>
      rcases hc : s2.ctxErr with _ | ce
      · rcases hf : f v s2 with ⟨s3, v2, e2⟩
        cases e2 with
        | some e2 => simp [FlatMap, hu, hc, hf]
        | none =>
          rcases hc2 : s3.ctxErr with _ | ce2
          · simp [FlatMap, hu, hc, hf, hc2]
          · simp [FlatMap, hu, hc, hf, hc2]
      · simp [FlatMap, hu, hc]

theorem c3_functor_monad_laws_amended_witness :
    Map (Pure 5 : Task Unit Nat) (fun x => x) ⟨none, ()⟩ = Pure 5 ⟨none, ()⟩ ∧
    FlatMap (FlatMap (Pure 5 : Task Unit Nat) (fun x => Pure (x + 1))) (fun y => Pure (y * 2))
        ⟨none, ()⟩
      = FlatMap (Pure 5 : Task Unit Nat)
          (fun x => FlatMap (Pure (x + 1)) (fun y => Pure (y * 2))) ⟨none, ()⟩ :=
  ⟨c3_functor_monad_laws_amended.1 Unit Nat (Pure 5)
      (fun s s2 v e h => by
        cases hs : s.ctxErr with
        | some err => simp [Pure, hs] at h; exact h.2.1.symm
        | none => simp [Pure, hs] at h)
      (fun s s2 v h => by
        cases hs : s.ctxErr with
        | some err => simp [Pure, hs] at h
        | none => simp [Pure, hs] at h; rw [← h.1, hs])
      ⟨none, ()⟩,
   c3_functor_monad_laws_amended.2 Unit Nat Nat Nat (Pure 5)
      (fun x => Pure (x + 1)) (fun y => Pure (y * 2)) ⟨none, ()⟩⟩

/-- Draining a schedule of failure outcomes never overwrites an already
recorded first error: after consuming all of them the loop reports the
error recorded first. -/
theorem awaitRaceResult_all_fail_some (T : Type) [Inhabited T] (fce : Option GoError) :
    ∀ (fails : List (T × GoError)) (e0 : GoError),
      awaitRaceResult fce fails.length
          (fails.map (fun p => RaceEvent.outcome p.1 (some p.2))) (some e0)
        = (default, some e0) := by
  intro fails
  induction fails with
  | nil => intro e0; rfl
  | cons p rest ih =>
    intro e0
    simp only [List.length_cons, List.map_cons, awaitRaceResult]
    exact ih e0

/-- C1: for `Race` over a non-empty task list on a live context: when all
workers report failures (one outcome event per task, none succeeding), the
race returns the chronologically first error — and only after the schedule
has delivered all `tasks.length` outcomes, which the loop drains in full;
when the race context's Done fires before any worker outcome is observed,
the context's cancellation error is returned at once. -/
theorem c1_race_first_error_and_cancellation (σ T : Type) [Inhabited T]
    (tasks : List (Task σ T)) (finalCtxErr : Option GoError) (s : St σ)
    (hne : tasks ≠ []) (hLive : s.ctxErr = none) :
    (∀ (v0 : T) (e0 : GoError) (rest : List (T × GoError)),
      ((v0, e0) :: rest).length = tasks.length →
      Race tasks (((v0, e0) :: rest).map (fun p => RaceEvent.outcome p.1 (some p.2)))
          finalCtxErr s
        = (s, default, some e0)) ∧
    (∀ (ce : GoError) (events : List (RaceEvent T)),
      Race tasks (RaceEvent.ctxDone ce :: events) finalCtxErr s
        = (s, default, some ce)) := by
  constructor
  · intro v0 e0 rest hlen
    simp only [Race, hLive]
    rw [if_neg (by simp [hne]), ← hlen]
    simp only [List.length_cons, List.map_cons, awaitRaceResult]
    rw [awaitRaceResult_all_fail_some T finalCtxErr rest e0]
  · intro ce events
    obtain ⟨t0, ts, rfl⟩ := List.exists_cons_of_ne_nil hne
    simp [Race, hLive, awaitRaceResult]

theorem c1_race_first_error_and_cancellation_witness :
    Race [(Fail (some (.mk "a")) : Task Unit Nat), Fail (some (.mk "b"))]
        [RaceEvent.outcome 0 (some (.mk "a")), RaceEvent.outcome 0 (some (.mk "b"))]
        none ⟨none, ()⟩
      = (⟨none, ()⟩, 0, some (.mk "a")) ∧
    Race [(Fail (some (.mk "a")) : Task Unit Nat), Fail (some (.mk "b"))]
        [RaceEvent.ctxDone ctxCanceled] none ⟨none, ()⟩
      = (⟨none, ()⟩, 0, some ctxCanceled) :=
  ⟨(c1_race_first_error_and_cancellation Unit Nat
      [Fail (some (.mk "a")), Fail (some (.mk "b"))] none ⟨none, ()⟩
      (by simp) rfl).1 0 (.mk "a") [(0, .mk "b")] rfl,
   (c1_race_first_error_and_cancellation Unit Nat
      [Fail (some (.mk "a")), Fail (some (.mk "b"))] none ⟨none, ()⟩
      (by simp) rfl).2 ctxCanceled []⟩

end Fgp
